import Mathlib

/-!
Verification of the Blackcap/Conductor/Demon job-scheduling repository.

The file embeds, in a shallow way, the Python code under
`src/conductor/src/conductor/auther/cookie_auther.py`,
`src/demon/src/demon/schemas/meta/mixins.py` and
`src/demon/src/demon/cluster/base.py`, together with the parts of the
schedule store, scheduler and job-lifecycle that the specification
describes but whose code is not among the source files (those
definitions carry a `Modelled from the spec:` doc comment).
-/

namespace Blackcap

/-! ## Cookie auther (`cookie_auther.py`) -/

/-- A row of the `ProtagonistDB` table: `email`, stored `password` hash,
`name`, `organisation`. -/
structure Protagonist where
  email : String
  password : String
  name : String
  organisation : String
deriving DecidableEq, Repr

/-- The credentials body of `AuthUserCreds`. -/
structure AuthUserCreds where
  email : String
  password : String
deriving DecidableEq, Repr

/-- `CookieAuther.login_user`: select the users whose email equals the
credential email; if none, return `none`; otherwise check the supplied
password against the first user's stored hash with `checkpw`, and on a
match return the user together with the JWT cookie produced by
`jwt.encode` (abstracted as `jwtEncode`); on a mismatch return `none`.
`checkpw` and `jwtEncode` abstract the external `bcrypt` and `jwt`
libraries. -/
def login_user (checkpw : String → String → Bool)
    (jwtEncode : Protagonist → String)
    (db : List Protagonist) (user_creds : AuthUserCreds) :
    Option (Protagonist × String) :=
  let user_list := db.filter (fun u => u.email == user_creds.email)
  match user_list with
  | [] => none
  | u :: _ =>
    if checkpw user_creds.password u.password then
      some (u, jwtEncode u)
    else
      none

/-- Outcome of the external `jwt.decode` call: a decoded payload, a
`jwt.DecodeError`, or any other exception (carried with its message). -/
inductive JwtResult where
  | payload (email : String)
  | decodeFailure
  | otherFailure (msg : String)
deriving DecidableEq, Repr

/-- A flask request, reduced to its cookie jar (`request.cookies`). -/
structure FlaskRequest where
  cookies : List (String × String)
deriving DecidableEq, Repr

/-- `request.cookies.get(name)`: the first cookie with the given name. -/
def FlaskRequest.getCookie (req : FlaskRequest) (name : String) :
    Option String :=
  (req.cookies.find? (fun kv => kv.1 == name)).map (fun kv => kv.2)

/-- `CookieAuther.extract_user_from_flask_req`: read the cookie named
after the app; if absent return `none`; otherwise decode it with
`jwt.decode` (abstracted as `decode`): a `jwt.DecodeError` yields `none`,
any other exception is re-raised (modelled as `Except.error`), and a
decoded payload leads to a lookup of the user by the payload email,
returning the first match or `none`. -/
def extract_user_from_flask_req (decode : String → JwtResult)
    (db : List Protagonist) (appName : String) (request : FlaskRequest) :
    Except String (Option Protagonist) :=
  match request.getCookie appName with
  | none => Except.ok none
  | some user_cookie_encoded =>
    match decode user_cookie_encoded with
    | JwtResult.decodeFailure => Except.ok none
    | JwtResult.otherFailure msg => Except.error msg
    | JwtResult.payload email =>
      match db.filter (fun u => u.email == email) with
      | [] => Except.ok none
      | u :: _ => Except.ok (some u)

/-- A user as seen by the authorizer (`schemas/user.py`). -/
structure User where
  user_id : Nat
  name : String
  email : String
deriving DecidableEq, Repr

/-- `CookieAuther.authorize_user`: the shipped authorizer returns `True`
for every user and every request. -/
def authorize_user (user : User) (request : FlaskRequest) : Bool :=
  true

/-! ## CRUD mixin (`mixins.py`) -/

/-- A database record as a bag of attribute values: the Python object's
attribute map. Each attribute name is bound to a value. -/
def DbRecord := String → Nat

/-- The database session, reduced to the list of records that have been
added and committed. -/
structure DbSession where
  committed : List DbRecord

/-- `CRUDMixin.save`: `DBSession.add(self)` followed by
`DBSession.commit()` when `commit` is true; returns `self`. Since the
shallow session only tracks committed rows, an `add` without `commit`
leaves the session as it was. -/
def CRUDMixin.save (self : DbRecord) (sess : DbSession) (commit : Bool) :
    DbRecord × DbSession :=
  if commit then (self, ⟨sess.committed ++ [self]⟩) else (self, sess)

/-- The `setattr(self, attr, value)` loop of `CRUDMixin.update`: apply
each keyword argument in order, later bindings overriding earlier ones. -/
def setattrLoop (self : DbRecord) (kwargs : List (String × Nat)) :
    DbRecord :=
  kwargs.foldl
    (fun acc kv => fun a => if a = kv.1 then kv.2 else acc a) self

/-- `CRUDMixin.update`: set each attribute named in `kwargs` to its
value, then `commit and self.save(DBSession) or self` — save (and
commit) when `commit` is true, otherwise return the modified record
with the session untouched. -/
def CRUDMixin.update (self : DbRecord) (sess : DbSession)
    (commit : Bool) (kwargs : List (String × Nat)) :
    DbRecord × DbSession :=
  let self := setattrLoop self kwargs
  if commit then CRUDMixin.save self sess true else (self, sess)

/-- Errors surfaced by the persistence layer. `integrityError` stands
for the exception the database raises when the transaction of
`bulk_create` violates a constraint. -/
inductive CrudError where
  | integrityError
deriving DecidableEq, Repr

/-- Insertion of the constructed instances into the transaction of
`session.bulk_save_objects` + `session.commit()`: each row is checked
against the rows already present (committed rows plus the rows inserted
before it); a row that `conflict`s makes the whole transaction fail. -/
def insertAll (conflict : DbRecord → List DbRecord → Bool) :
    List DbRecord → List DbRecord → Option (List DbRecord)
  | rows, [] => some rows
  | rows, r :: rs =>
    if conflict r rows then none else insertAll conflict (rows ++ [r]) rs

/-- `CRUDMixin.bulk_create`: construct one instance per item of the
list, then save them all with `session.bulk_save_objects` and a single
`session.commit()`; return `True` on success. A constraint violation
raises and the transaction rolls back, so the session keeps its
original rows. The pair returned is (call outcome, committed rows after
the call). -/
def bulk_create (conflict : DbRecord → List DbRecord → Bool)
    (lst : List DbRecord) (sess : DbSession) :
    Except CrudError Bool × DbSession :=
  match insertAll conflict sess.committed lst with
  | none => (Except.error CrudError.integrityError, sess)
  | some rows => (Except.ok true, ⟨rows⟩)

/-- No item of the batch conflicts with the rows already present when
its turn comes (the committed rows plus the items inserted before it):
the condition under which the transaction of `bulk_create` commits. -/
def noSeqConflict (conflict : DbRecord → List DbRecord → Bool)
    (rows : List DbRecord) (items : List DbRecord) : Prop :=
  ∀ i : Fin items.length,
    conflict (items.get i) (rows ++ items.take i.val) = false

/-- A schedule row as a record: its `job_id` attribute. -/
def schedRow (job : Nat) : DbRecord :=
  fun a => if a = "job_id" then job else 0

/-- The database uniqueness constraint on schedules: a new row
conflicts when some present row carries the same `job_id`. -/
def schedConflict (r : DbRecord) (rows : List DbRecord) : Bool :=
  rows.any (fun s => s "job_id" == r "job_id")

/-! ## Job lifecycle (modelled from the spec) -/

/-- The Job status enum: PENDING, SCHEDULED, RUNNING, SUCCEEDED,
FAILED, CANCELLED. -/
inductive JobStatus where
  | pending
  | scheduled
  | running
  | succeeded
  | failed
  | cancelled
deriving DecidableEq, Repr, Fintype

/-- SUCCEEDED, FAILED and CANCELLED are the terminal states. -/
def JobStatus.isTerminal : JobStatus → Bool
  | JobStatus.succeeded => true
  | JobStatus.failed => true
  | JobStatus.cancelled => true
  | _ => false

/-- Position of a status along the forward lifecycle
PENDING → SCHEDULED → RUNNING → terminal. -/
def JobStatus.rank : JobStatus → Nat
  | JobStatus.pending => 0
  | JobStatus.scheduled => 1
  | JobStatus.running => 2
  | _ => 3

/-- Modelled from the spec: the Job status transitions driven by the
Scheduler and the reconciliation loop (the job-lifecycle code is not
among the source files). A status advances along
PENDING → SCHEDULED → RUNNING → {SUCCEEDED | FAILED | CANCELLED}, and a
non-terminal status may in addition jump to FAILED or CANCELLED
(backend failure, explicit withdrawal). Terminal states admit no
transition. -/
def jobStatusStep : JobStatus → JobStatus → Bool
  | JobStatus.pending, JobStatus.scheduled => true
  | JobStatus.scheduled, JobStatus.running => true
  | JobStatus.running, JobStatus.succeeded => true
  | JobStatus.pending, JobStatus.failed => true
  | JobStatus.pending, JobStatus.cancelled => true
  | JobStatus.scheduled, JobStatus.failed => true
  | JobStatus.scheduled, JobStatus.cancelled => true
  | JobStatus.running, JobStatus.failed => true
  | JobStatus.running, JobStatus.cancelled => true
  | _, _ => false

/-! ## Schedule store (modelled from the spec) -/

/-- A Schedule record: the binding of a Job to a target Cluster.
`active` is false once the schedule is soft-deleted. -/
structure Schedule where
  schedule_id : Nat
  job_id : Nat
  cluster_id : Nat
  active : Bool
deriving DecidableEq, Repr

/-- The schedule store's persistent state: the ids of the existing Jobs
and the Schedule rows, plus a counter for fresh schedule ids. -/
structure StoreState where
  jobs : List Nat
  schedules : List Schedule
  nextId : Nat
deriving DecidableEq, Repr

/-- Errors of the schedule store. -/
inductive ScheduleError where
  | jobNotFoundError
  | duplicateScheduleError
  | invalidQueryError
deriving DecidableEq, Repr

/-- Whether some currently-active Schedule references job `j`. -/
def hasActiveSchedule (st : StoreState) (j : Nat) : Bool :=
  st.schedules.any (fun s => s.active && s.job_id == j)

/-- A `ScheduledCreateRequest{job_id, cluster_id}` as handed to the
schedule store by the Scheduler. -/
structure ScheduledCreateRequest where
  job_id : Nat
  cluster_id : Nat
deriving DecidableEq, Repr

/-- Modelled from the spec: the per-item step of the schedule store's
`create` (the `blackcap.blocs.schedule.create_schedule` code is not
among the source files): verify that the referenced Job exists and has
no currently-active Schedule; on violation fail the item with
`DuplicateScheduleError` (resp. a not-found error) leaving the store
unchanged, otherwise persist a fresh active Schedule. -/
def createOne (st : StoreState) (req : ScheduledCreateRequest) :
    Except ScheduleError Schedule × StoreState :=
  if (st.jobs.contains req.job_id : Bool) = false then
    (Except.error ScheduleError.jobNotFoundError, st)
  else if hasActiveSchedule st req.job_id then
    (Except.error ScheduleError.duplicateScheduleError, st)
  else
    let s : Schedule :=
      ⟨st.nextId, req.job_id, req.cluster_id, true⟩
    (Except.ok s, ⟨st.jobs, st.schedules ++ [s], st.nextId + 1⟩)

/-- Modelled from the spec: the schedule store's batch `create`: each
request of the batch is processed independently in order, a failing
item contributes its error to the per-item result list while the
remaining items are still processed and persisted. -/
def create_schedule (st : StoreState)
    (reqs : List ScheduledCreateRequest) :
    List (Except ScheduleError Schedule) × StoreState :=
  match reqs with
  | [] => ([], st)
  | r :: rs =>
    let (res, st) := createOne st r
    let (ress, st) := create_schedule st rs
    (res :: ress, st)

/-- The uniqueness invariant: no two currently-active Schedules
reference the same job. -/
def uniqueActive (st : StoreState) : Prop :=
  (st.schedules.filter (fun s => s.active)).Pairwise
    (fun a b => a.job_id ≠ b.job_id)

/-- Modelled from the spec: the schedule store's `get`, dispatching on
the `ScheduleQueryType` enum value (0 = by schedule_id, 1 = by job_id,
2 = by cluster_id); an unknown query type fails with
`InvalidQueryError`. -/
def get_schedule (st : StoreState) (queryType : Nat) (value : Nat) :
    Except ScheduleError (List Schedule) :=
  match queryType with
  | 0 => Except.ok (st.schedules.filter (fun s => s.schedule_id == value))
  | 1 => Except.ok (st.schedules.filter (fun s => s.job_id == value))
  | 2 => Except.ok (st.schedules.filter (fun s => s.cluster_id == value))
  | _ => Except.error ScheduleError.invalidQueryError

/-! ## Scheduler (modelled from the spec) -/

/-- A Cluster: id, capability labels, current load. -/
structure Cluster where
  cluster_id : Nat
  capabilities : List String
  load : Nat
deriving DecidableEq, Repr

/-- Scheduler errors. -/
inductive SchedulerError where
  | noEligibleClusterError
deriving DecidableEq, Repr

/-- A cluster is eligible for a job when its capabilities are a
superset of the job spec's required labels. -/
def eligible (required : List String) (c : Cluster) : Bool :=
  required.all (fun l => c.capabilities.contains l)

/-- Strict preference between clusters: lower load first, ties broken
by cluster_id ascending. -/
def better (a b : Cluster) : Bool :=
  a.load < b.load || (a.load == b.load && a.cluster_id < b.cluster_id)

/-- Modelled from the spec: the Scheduler's selection algorithm (the
`blackcap.scheduler` code is not among the source files): filter the
clusters whose capabilities superset the required labels; with no
candidate fail with `NoEligibleClusterError`, otherwise pick the
candidate with lowest load, ties broken by cluster_id ascending. -/
def selectCluster (clusters : List Cluster) (required : List String) :
    Except SchedulerError Cluster :=
  match clusters.filter (eligible required) with
  | [] => Except.error SchedulerError.noEligibleClusterError
  | c :: rest =>
    Except.ok (rest.foldl (fun best x => if better x best then x else best) c)

/-- Modelled from the spec: scheduling a `ScheduleCreateRequest`
end-to-end — select a cluster, then persist the Schedule through the
store; when no cluster is eligible the error is reported to the caller
and no Schedule is created. -/
def scheduleJob (st : StoreState) (clusters : List Cluster)
    (required : List String) (job_id : Nat) :
    Except SchedulerError (Except ScheduleError Schedule) × StoreState :=
  match selectCluster clusters required with
  | Except.error e => (Except.error e, st)
  | Except.ok c =>
    let (res, st) := createOne st ⟨job_id, c.cluster_id⟩
    (Except.ok res, st)

/-! ## Theorems -/

/-- C9: `CookieAuther.authorize_user` returns `True` for every user and
every request: the shipped authorizer never denies an action, so no
request is ever rejected as Unauthorized by this auther. -/
theorem C9_authorize_user_always_true :
    ∀ (u : User) (r : FlaskRequest), authorize_user u r = true :=
  fun _ _ => rfl

/-- C2: every Job status transition moves strictly forward along
PENDING → SCHEDULED → RUNNING → {SUCCEEDED | FAILED | CANCELLED}
(its rank strictly increases and its source is non-terminal), and a
status that is terminal admits no transition at all. -/
theorem C2_job_status_monotone_and_terminal_immutable :
    ∀ s t : JobStatus,
      (jobStatusStep s t = true → s.rank < t.rank ∧ s.isTerminal = false) ∧
      (s.isTerminal = true → jobStatusStep s t = false) := by
  decide

/-- C2 witness: the PENDING → SCHEDULED transition advances the rank,
and SUCCEEDED admits no transition to RUNNING. -/
theorem C2_witness :
    (JobStatus.rank JobStatus.pending < JobStatus.rank JobStatus.scheduled ∧
      JobStatus.isTerminal JobStatus.pending = false) ∧
    jobStatusStep JobStatus.succeeded JobStatus.running = false :=
  ⟨(C2_job_status_monotone_and_terminal_immutable JobStatus.pending
      JobStatus.scheduled).1 (by decide),
   (C2_job_status_monotone_and_terminal_immutable JobStatus.succeeded
      JobStatus.running).2 (by decide)⟩

/-- C8: querying the schedule store by job_id for a job that no
Schedule references returns the empty list wrapped in a success, not an
error. -/
theorem C8_get_schedule_by_job_id_empty :
    ∀ (st : StoreState) (j : Nat),
      (∀ s ∈ st.schedules, s.job_id ≠ j) →
      get_schedule st 1 j = Except.ok [] := by
  intro st j h
  have hf : st.schedules.filter (fun s => s.job_id == j) = [] := by
    rw [List.filter_eq_nil_iff]
    intro s hs
    simp [h s hs]
  simp [get_schedule, hf]

/-- C8 witness: a store holding one schedule for job 5 answers the
query for job 7 with the empty list. -/
theorem C8_witness :
    get_schedule ⟨[5, 7], [⟨0, 5, 1, true⟩], 1⟩ 1 7 = Except.ok [] :=
  C8_get_schedule_by_job_id_empty ⟨[5, 7], [⟨0, 5, 1, true⟩], 1⟩ 7 (by decide)

/-- C6: when the request's cookie is present but `jwt.decode` fails
with a `DecodeError`, `extract_user_from_flask_req` returns `None`
without raising — the same result as when the cookie is absent. -/
theorem C6_extract_user_decode_failure_is_none :
    ∀ (decode : String → JwtResult) (db : List Protagonist)
      (appName : String) (req : FlaskRequest),
      (req.getCookie appName = none →
        extract_user_from_flask_req decode db appName req = Except.ok none) ∧
      (∀ c, req.getCookie appName = some c →
        decode c = JwtResult.decodeFailure →
        extract_user_from_flask_req decode db appName req =
          Except.ok none) := by
  intro decode db appName req
  constructor
  · intro h
    simp [extract_user_from_flask_req, h]
  · intro c hc hd
    simp [extract_user_from_flask_req, hc, hd]

/-- C6 witness: an undecodable cookie named after the app yields
`None`, exactly as a request with no cookie does. -/
theorem C6_witness :
    extract_user_from_flask_req (fun _ => JwtResult.decodeFailure) []
      "app" ⟨[("app", "garbage")]⟩ = Except.ok none :=
  (C6_extract_user_decode_failure_is_none (fun _ => JwtResult.decodeFailure)
      [] "app" ⟨[("app", "garbage")]⟩).2 "garbage" rfl rfl

/-- C5: `login_user` produces a (user, cookie) pair exactly when the
credential email matches a stored user and the password checks against
that user's stored hash: credentials whose email heads the matching
users and whose password passes `checkpw` receive the user and the JWT
cookie, while an unknown email or a failing password check produces the
failure value `none`, never a success. -/
theorem C5_login_user_token_iff_authenticated :
    ∀ (checkpw : String → String → Bool) (jwtEncode : Protagonist → String)
      (db : List Protagonist) (creds : AuthUserCreds),
      ((∀ u ∈ db, u.email ≠ creds.email) →
        login_user checkpw jwtEncode db creds = none) ∧
      (∀ u rest,
        db.filter (fun v => v.email == creds.email) = u :: rest →
        checkpw creds.password u.password = false →
        login_user checkpw jwtEncode db creds = none) ∧
      (∀ u rest,
        db.filter (fun v => v.email == creds.email) = u :: rest →
        checkpw creds.password u.password = true →
        login_user checkpw jwtEncode db creds = some (u, jwtEncode u)) ∧
      (∀ u tok, login_user checkpw jwtEncode db creds = some (u, tok) →
        u ∈ db ∧ u.email = creds.email ∧
        checkpw creds.password u.password = true ∧ tok = jwtEncode u) := by
  intro checkpw jwtEncode db creds
  refine ⟨?_, ?_, ?_, ?_⟩
  · intro h
    have hf : db.filter (fun v => v.email == creds.email) = [] := by
      rw [List.filter_eq_nil_iff]
      intro u hu
      simp [h u hu]
    simp [login_user, hf]
  · intro u rest hf hpw
    simp [login_user, hf, hpw]
  · intro u rest hf hpw
    simp [login_user, hf, hpw]
  · intro u tok hres
    unfold login_user at hres
    cases hfilt : db.filter (fun v => v.email == creds.email) with
    | nil => rw [hfilt] at hres; simp at hres
    | cons v rest =>
      rw [hfilt] at hres
      by_cases hpw : checkpw creds.password v.password
      · simp only [hpw, if_true, Option.some.injEq, Prod.mk.injEq] at hres
        obtain ⟨hv, htok⟩ := hres
        subst hv
        have hmem : v ∈ db.filter (fun w => w.email == creds.email) := by
          rw [hfilt]; exact List.mem_cons_self v rest
        rw [List.mem_filter] at hmem
        exact ⟨hmem.1, by simpa using hmem.2, hpw, htok.symm⟩
      · simp [hpw] at hres

/-- C5 witness: a credential with an email absent from the user table
fails to log in, and the matching credential for the stored user
receives the user together with its cookie. -/
theorem C5_witness :
    login_user (fun p h => p == h) (fun u => u.email)
      [⟨"a@x", "H", "n", "o"⟩] ⟨"b@x", "pw"⟩ = none ∧
    login_user (fun p h => p == h) (fun u => u.email)
      [⟨"a@x", "H", "n", "o"⟩] ⟨"a@x", "H"⟩ =
      some (⟨"a@x", "H", "n", "o"⟩, "a@x") :=
  ⟨(C5_login_user_token_iff_authenticated (fun p h => p == h)
      (fun u => u.email) [⟨"a@x", "H", "n", "o"⟩] ⟨"b@x", "pw"⟩).1
    (by decide),
   (C5_login_user_token_iff_authenticated (fun p h => p == h)
      (fun u => u.email) [⟨"a@x", "H", "n", "o"⟩] ⟨"a@x", "H"⟩).2.2.1
    ⟨"a@x", "H", "n", "o"⟩ [] (by decide) (by decide)⟩

/-- `List.lookup` distributes over append: the first list is consulted
first. -/
theorem lookup_append (a : String) (l₁ l₂ : List (String × Nat)) :
    (l₁ ++ l₂).lookup a =
      ((l₁.lookup a).orElse (fun _ => l₂.lookup a)) := by
  induction l₁ with
  | nil => simp [List.lookup, Option.orElse]
  | cons kv t ih =>
    simp only [List.cons_append, List.lookup]
    cases h : (a == kv.1) with
    | true => simp [Option.orElse]
    | false => simpa [Option.orElse] using ih

/-- The attribute loop of `CRUDMixin.update` evaluated at an attribute:
the last binding of that attribute in the keyword arguments when there
is one, the record's previous value otherwise. -/
theorem setattrLoop_lookup (kwargs : List (String × Nat)) :
    ∀ (r : DbRecord) (a : String),
      setattrLoop r kwargs a = (kwargs.reverse.lookup a).getD (r a) := by
  induction kwargs with
  | nil => intro r a; rfl
  | cons kv rest ih =>
    intro r a
    have h1 : setattrLoop r (kv :: rest) =
        setattrLoop (fun b => if b = kv.1 then kv.2 else r b) rest := rfl
    rw [h1, ih, List.reverse_cons, lookup_append]
    cases hr : rest.reverse.lookup a with
    | some v => simp [Option.orElse]
    | none =>
      by_cases hak : a = kv.1
      · simp [Option.orElse, List.lookup, hak]
      · have hb : (a == kv.1) = false := by simp [hak]
        simp [Option.orElse, List.lookup, hb, hak]

/-- C10: `CRUDMixin.update` sets exactly the attributes named in the
keyword arguments to the given values and leaves every other attribute
unchanged; with `commit = False` it returns the modified record and
the session is untouched, with `commit = True` it saves the modified
record. -/
theorem C10_update_sets_exactly_kwargs :
    ∀ (r : DbRecord) (sess : DbSession) (kwargs : List (String × Nat))
      (a : String),
      (CRUDMixin.update r sess false kwargs).1 a =
        ((kwargs.reverse.lookup a).getD (r a)) ∧
      (CRUDMixin.update r sess false kwargs).2 = sess ∧
      (CRUDMixin.update r sess true kwargs).1 a =
        ((kwargs.reverse.lookup a).getD (r a)) ∧
      (CRUDMixin.update r sess true kwargs).2.committed =
        sess.committed ++ [setattrLoop r kwargs] := by
  intro r sess kwargs a
  exact ⟨setattrLoop_lookup kwargs r a, rfl,
    setattrLoop_lookup kwargs r a, rfl⟩

/-- When no item of the batch conflicts at its turn, the transaction of
`bulk_create` inserts every item after the present rows. -/
theorem insertAll_of_noSeqConflict
    (conflict : DbRecord → List DbRecord → Bool) (items : List DbRecord) :
    ∀ rows, noSeqConflict conflict rows items →
      insertAll conflict rows items = some (rows ++ items) := by
  induction items with
  | nil => intro rows h; simp [insertAll]
  | cons r rs ih =>
    intro rows h
    have h0 : conflict r rows = false := by
      simpa using h ⟨0, Nat.succ_pos _⟩
    have hrec : noSeqConflict conflict (rows ++ [r]) rs := by
      intro i
      have hs := h i.succ
      simpa [List.take_succ_cons, List.append_assoc] using hs
    simp only [insertAll, h0, Bool.false_eq_true, if_false]
    rw [ih (rows ++ [r]) hrec]
    simp [List.append_assoc]

/-- When some item of the batch conflicts at its turn, the transaction
of `bulk_create` aborts. -/
theorem insertAll_of_conflict
    (conflict : DbRecord → List DbRecord → Bool) (items : List DbRecord) :
    ∀ rows, ¬ noSeqConflict conflict rows items →
      insertAll conflict rows items = none := by
  induction items with
  | nil => intro rows h; exact absurd (fun i => i.elim0) h
  | cons r rs ih =>
    intro rows h
    cases h0 : conflict r rows with
    | true => simp [insertAll, h0]
    | false =>
      simp only [insertAll, h0, Bool.false_eq_true, if_false]
      apply ih
      intro hrec
      apply h
      intro i
      refine Fin.cases ?_ ?_ i
      · simpa using h0
      · intro j
        have hj := hrec j
        simpa [List.take_succ_cons, List.append_assoc] using hj

/-- C3 counterexample: the batch of three schedule rows whose second
item duplicates the already-persisted job 2 makes `bulk_create` fail as
a whole with a single `integrityError` — there is no per-item result
list with two successes — and the committed rows afterwards are exactly
the original ones: items 1 and 3 are not persisted. -/
theorem C3_counterexample :
    (bulk_create schedConflict [schedRow 1, schedRow 2, schedRow 3]
        ⟨[schedRow 2]⟩).1 = Except.error CrudError.integrityError ∧
    (bulk_create schedConflict [schedRow 1, schedRow 2, schedRow 3]
        ⟨[schedRow 2]⟩).2.committed = [schedRow 2] :=
  ⟨rfl, rfl⟩

/-- C3 amended: batch create through `CRUDMixin.bulk_create` is
all-or-nothing, not per-item: when no item conflicts the whole batch is
persisted in one transaction and the call returns `True` (not a
per-item result list), and when any item violates the uniqueness
constraint the whole call fails with a single integrity error and no
item of the batch is persisted. -/
theorem C3_bulk_create_all_or_nothing :
    ∀ (conflict : DbRecord → List DbRecord → Bool)
      (items : List DbRecord) (sess : DbSession),
      (noSeqConflict conflict sess.committed items →
        bulk_create conflict items sess =
          (Except.ok true, ⟨sess.committed ++ items⟩)) ∧
      (¬ noSeqConflict conflict sess.committed items →
        bulk_create conflict items sess =
          (Except.error CrudError.integrityError, sess)) := by
  intro conflict items sess
  constructor
  · intro h
    simp [bulk_create,
      insertAll_of_noSeqConflict conflict items sess.committed h]
  · intro h
    simp [bulk_create,
      insertAll_of_conflict conflict items sess.committed h]

/-- C3 witness: a conflict-free one-item batch commits in full and
returns `True`; a one-item batch duplicating the persisted job 2 fails
whole, leaving the session as it was. -/
theorem C3_witness :
    bulk_create schedConflict [schedRow 1] ⟨[schedRow 2]⟩ =
      (Except.ok true, ⟨[schedRow 2] ++ [schedRow 1]⟩) ∧
    bulk_create schedConflict [schedRow 2] ⟨[schedRow 2]⟩ =
      (Except.error CrudError.integrityError, ⟨[schedRow 2]⟩) := by
  constructor
  · exact (C3_bulk_create_all_or_nothing schedConflict [schedRow 1]
        ⟨[schedRow 2]⟩).1
      (by
        intro i
        rcases i with ⟨iv, hi⟩
        match iv, hi with
        | 0, _ => rfl)
  · exact (C3_bulk_create_all_or_nothing schedConflict [schedRow 2]
        ⟨[schedRow 2]⟩).2
      (by
        intro hcon
        have hc := hcon ⟨0, Nat.succ_pos _⟩
        exact absurd hc (by decide))

/-- `better` is the strict lexicographic order on (load, cluster_id). -/
theorem better_iff (a b : Cluster) :
    better a b = true ↔
      (a.load < b.load ∨
        (a.load = b.load ∧ a.cluster_id < b.cluster_id)) := by
  simp [better, Bool.or_eq_true, Bool.and_eq_true, decide_eq_true_iff,
    beq_iff_eq]

/-- Negation of `better`, unfolded. -/
theorem better_eq_false_iff (a b : Cluster) :
    better a b = false ↔
      ¬(a.load < b.load ∨
        (a.load = b.load ∧ a.cluster_id < b.cluster_id)) := by
  rw [← better_iff]
  cases better a b <;> simp

/-- `better` is irreflexive. -/
theorem better_irrefl (a : Cluster) : better a a = false := by
  rw [better_eq_false_iff]
  omega

/-- `better` is transitive. -/
theorem better_trans {a b c : Cluster} (h1 : better a b = true)
    (h2 : better b c = true) : better a c = true := by
  rw [better_iff] at h1 h2 ⊢
  omega

/-- A non-preferred then preferred chain: when `a` does not beat `b`
but beats `c`, `b` beats `c` as well. -/
theorem better_of_not_better {a b c : Cluster}
    (h1 : better a b = false) (h2 : better a c = true) :
    better b c = true := by
  rw [better_eq_false_iff] at h1
  rw [better_iff] at h2 ⊢
  omega

/-- The fold of the Scheduler's selection picks an element of the
candidate list that no candidate beats. -/
theorem foldl_better_spec (rs : List Cluster) :
    ∀ c : Cluster,
      (rs.foldl (fun best x => if better x best then x else best) c ∈
        c :: rs) ∧
      (∀ d ∈ c :: rs,
        better d
          (rs.foldl (fun best x => if better x best then x else best) c) =
          false) := by
  induction rs with
  | nil =>
    intro c
    refine ⟨List.mem_cons_self c [], ?_⟩
    intro d hd
    rcases List.mem_cons.mp hd with h | h
    · subst h; exact better_irrefl d
    · cases h
  | cons x rs ih =>
    intro c
    simp only [List.foldl_cons]
    cases hxc : better x c with
    | true =>
      rw [if_pos rfl]
      obtain ⟨hmem, hmin⟩ := ih x
      constructor
      · rcases List.mem_cons.mp hmem with h | h
        · rw [h]; exact List.mem_cons_of_mem c (List.mem_cons_self x rs)
        · exact List.mem_cons_of_mem c (List.mem_cons_of_mem x h)
      · intro d hd
        rcases List.mem_cons.mp hd with h | h
        · subst h
          cases hdm : better d
              (rs.foldl (fun best x => if better x best then x else best)
                x) with
          | false => rfl
          | true =>
            have hxm := better_trans hxc hdm
            have hx := hmin x (List.mem_cons_self x rs)
            rw [hx] at hxm
            cases hxm
        · exact hmin d h
    | false =>
      rw [if_neg Bool.false_ne_true]
      obtain ⟨hmem, hmin⟩ := ih c
      constructor
      · rcases List.mem_cons.mp hmem with h | h
        · rw [h]; exact List.mem_cons_self c (x :: rs)
        · exact List.mem_cons_of_mem c (List.mem_cons_of_mem x h)
      · intro d hd
        rcases List.mem_cons.mp hd with h | h
        · subst h; exact hmin d (List.mem_cons_self d rs)
        · rcases List.mem_cons.mp h with h2 | h2
          · subst h2
            cases hdm : better d
                (rs.foldl (fun best x => if better x best then x else best)
                  c) with
            | false => rfl
            | true =>
              have hcm := better_of_not_better hxc hdm
              have hc := hmin c (List.mem_cons_self c rs)
              rw [hc] at hcm
              cases hcm
          · exact hmin d (List.mem_cons_of_mem c h2)

/-- C4: the Scheduler keeps exactly the clusters whose capabilities
superset the required labels; a successful selection yields an eligible
cluster of the set that has minimal load, ties broken by cluster_id
ascending; with no eligible cluster, scheduling fails with
`NoEligibleClusterError` and the store is left unchanged — no Schedule
is created. -/
theorem C4_scheduler_selection :
    ∀ (st : StoreState) (clusters : List Cluster)
      (required : List String) (job_id : Nat),
      ((∀ c ∈ clusters, eligible required c = false) →
        scheduleJob st clusters required job_id =
          (Except.error SchedulerError.noEligibleClusterError, st)) ∧
      (∀ c, selectCluster clusters required = Except.ok c →
        c ∈ clusters ∧ eligible required c = true ∧
        ∀ d ∈ clusters, eligible required d = true →
          (c.load < d.load ∨
            (c.load = d.load ∧ c.cluster_id ≤ d.cluster_id))) := by
  intro st clusters required job_id
  constructor
  · intro h
    have hf : clusters.filter (eligible required) = [] := by
      rw [List.filter_eq_nil_iff]
      intro c hc
      simp [h c hc]
    simp [scheduleJob, selectCluster, hf]
  · intro c hc
    unfold selectCluster at hc
    cases hfilt : clusters.filter (eligible required) with
    | nil => rw [hfilt] at hc; exact Except.noConfusion hc
    | cons x rs =>
      rw [hfilt] at hc
      injection hc with hc
      obtain ⟨hmem, hmin⟩ := foldl_better_spec rs x
      rw [hc] at hmem hmin
      have hcfilt : c ∈ clusters.filter (eligible required) := by
        rw [hfilt]; exact hmem
      rw [List.mem_filter] at hcfilt
      refine ⟨hcfilt.1, hcfilt.2, ?_⟩
      intro d hd hde
      have hdf : d ∈ x :: rs := by
        rw [← hfilt]
        exact List.mem_filter.mpr ⟨hd, hde⟩
      have hbd := hmin d hdf
      rw [better_eq_false_iff] at hbd
      omega

/-- C4 witness: a gpu-requiring job against a cpu-only cluster set is
rejected with `NoEligibleClusterError` and the store is unchanged; and
among two gpu clusters the selected one (load 1, id 2) compares
favourably to the other (load 2, id 1). -/
theorem C4_witness :
    scheduleJob ⟨[9], [], 0⟩ [⟨1, ["cpu"], 5⟩] ["gpu"] 9 =
      (Except.error SchedulerError.noEligibleClusterError, ⟨[9], [], 0⟩) ∧
    ((1 : Nat) < 2 ∨ ((1 : Nat) = 2 ∧ (2 : Nat) ≤ 1)) :=
  ⟨(C4_scheduler_selection ⟨[9], [], 0⟩ [⟨1, ["cpu"], 5⟩] ["gpu"] 9).1
      (by decide),
   ((C4_scheduler_selection ⟨[9], [], 0⟩
        [⟨1, ["gpu"], 2⟩, ⟨2, ["gpu"], 1⟩] ["gpu"] 9).2
      ⟨2, ["gpu"], 1⟩ rfl).2.2 ⟨1, ["gpu"], 2⟩ (by decide) rfl⟩

/-- A single `createOne` keeps the uniqueness invariant: the error
branches leave the store untouched, and the success branch only runs
when no active schedule references the requested job. -/
theorem createOne_preserves_unique (st : StoreState)
    (req : ScheduledCreateRequest) (h : uniqueActive st) :
    uniqueActive (createOne st req).2 := by
  unfold createOne
  by_cases hjob : (st.jobs.contains req.job_id : Bool) = false
  · rw [if_pos hjob]
    exact h
  · rw [if_neg hjob]
    by_cases hdup : hasActiveSchedule st req.job_id = true
    · rw [if_pos hdup]
      exact h
    · rw [if_neg hdup]
      have hdup' : hasActiveSchedule st req.job_id = false := by
        cases hv : hasActiveSchedule st req.job_id with
        | true => exact absurd hv hdup
        | false => rfl
      unfold hasActiveSchedule at hdup'
      rw [List.any_eq_false] at hdup'
      unfold uniqueActive at h ⊢
      simp only [List.filter_append]
      rw [List.pairwise_append]
      refine ⟨h, ?_, ?_⟩
      · simp
      · intro a ha b hb
        rw [List.mem_filter] at ha
        have hane := hdup' a ha.1
        have hne : a.job_id ≠ req.job_id := by
          intro heq
          apply hane
          rw [ha.2, heq]
          simp
        simp only [List.mem_filter, List.mem_singleton] at hb
        rcases hb with ⟨hb1, _⟩
        rw [hb1]
        exact hne

/-- The batch create of the schedule store preserves the uniqueness
invariant request after request. -/
theorem create_schedule_preserves_unique
    (reqs : List ScheduledCreateRequest) :
    ∀ st, uniqueActive st → uniqueActive (create_schedule st reqs).2 := by
  induction reqs with
  | nil => intro st h; exact h
  | cons r rs ih =>
    intro st h
    have h1 := createOne_preserves_unique st r h
    simpa [create_schedule] using ih (createOne st r).2 h1

/-- C1: the schedule-store create keeps the invariant that at most one
active Schedule references any Job: batch create preserves
`uniqueActive`, a request whose job already has an active Schedule
fails with `DuplicateScheduleError` leaving the store unchanged, and a
request whose job does not exist fails with the not-found error leaving
the store unchanged. -/
theorem C1_unique_active_schedule_per_job :
    ∀ (st : StoreState) (reqs : List ScheduledCreateRequest),
      (uniqueActive st → uniqueActive (create_schedule st reqs).2) ∧
      (∀ r : ScheduledCreateRequest,
        st.jobs.contains r.job_id = true →
        hasActiveSchedule st r.job_id = true →
        (createOne st r).1 =
          Except.error ScheduleError.duplicateScheduleError ∧
        (createOne st r).2 = st) ∧
      (∀ r : ScheduledCreateRequest,
        st.jobs.contains r.job_id = false →
        (createOne st r).1 = Except.error ScheduleError.jobNotFoundError ∧
        (createOne st r).2 = st) := by
  intro st reqs
  refine ⟨fun h => create_schedule_preserves_unique reqs st h, ?_, ?_⟩
  · intro r hjob hdup
    have hmem : r.job_id ∈ st.jobs := by simpa using hjob
    constructor <;> simp [createOne, hmem, hdup]
  · intro r hjob
    have hmem : r.job_id ∉ st.jobs := by simpa using hjob
    constructor <;> simp [createOne, hmem]

/-- C1 witness: creating two schedules for the same job 1 in one batch
leaves the store with a unique active schedule per job, and a direct
duplicate request against a store already holding an active schedule
for job 1 fails with `DuplicateScheduleError`. -/
theorem C1_witness :
    uniqueActive (create_schedule ⟨[1], [], 0⟩ [⟨1, 4⟩, ⟨1, 5⟩]).2 ∧
    (createOne ⟨[1], [⟨0, 1, 4, true⟩], 1⟩ ⟨1, 5⟩).1 =
      Except.error ScheduleError.duplicateScheduleError :=
  ⟨(C1_unique_active_schedule_per_job ⟨[1], [], 0⟩ [⟨1, 4⟩, ⟨1, 5⟩]).1
      (by simp [uniqueActive]),
   ((C1_unique_active_schedule_per_job ⟨[1], [⟨0, 1, 4, true⟩], 1⟩ []).2.1
      ⟨1, 5⟩ (by decide) (by decide)).1⟩

end Blackcap
